import Mathlib

/-!
Shallow embedding of the connection-point resolution engine of
`viznet/edgenode.py` (class `Node`), over exact rational arithmetic.

Python floats are modelled by `ℚ`; numpy 2-vectors by `ℚ × ℚ`; Python
strings by `List Char`; a call that raises an exception is modelled by
`Option` returning `none`.
-/

namespace Viznet

/-- A 2-D point / vector (a numpy array of length 2 in the source). -/
abbrev Point : Type := ℚ × ℚ

/-- Elementwise numpy addition `a + b` of two 2-vectors. -/
def padd (a b : Point) : Point := (a.1 + b.1, a.2 + b.2)

/-- Elementwise numpy subtraction `a - b` of two 2-vectors. -/
def psub (a b : Point) : Point := (a.1 - b.1, a.2 - b.2)

/-- Numpy scalar multiplication `c * p` of a 2-vector. -/
def smulP (c : ℚ) (p : Point) : Point := (c * p.1, c * p.2)

/-- Numpy dot product `a.dot(b)` of two 2-vectors. -/
def pdot (a b : Point) : ℚ := a.1 * b.1 + a.2 * b.2

/-- Mean of a list of rationals: numpy `xs.mean()` (coordinate slice). -/
def qmean (l : List ℚ) : ℚ := l.sum / (l.length : ℚ)

/-- Maximum of a list of rationals: numpy `.max()`.  Numpy raises on an
empty array; the modelled operations only ever apply this to nonempty
lists, so the `[]` value `0` is an inert default. -/
def listMax : List ℚ → ℚ
  | [] => 0
  | x :: xs => xs.foldl max x

/-- Coordinatewise mean of a list of 2-vectors: numpy `.mean(axis=0)`. -/
def pmean (l : List Point) : Point :=
  (qmean (l.map Prod.fst), qmean (l.map Prod.snd))

/-- Accumulator loop of `pySplit` (current fragment is built reversed). -/
def pySplitAux (sep : Char) : List Char → List Char → List (List Char)
  | [], acc => [acc.reverse]
  | c :: rest, acc =>
    if c = sep then acc.reverse :: pySplitAux sep rest []
    else pySplitAux sep rest (c :: acc)

/-- Python `name.split(sep)` for a single-character separator, on the
character-list model of strings. -/
def pySplit (sep : Char) (s : List Char) : List (List Char) :=
  pySplitAux sep s []

/-- Numpy `np.argmax` together with the maximal value: returns the index
of the FIRST occurrence of the maximum, `none` on an empty array (where
numpy raises `ValueError`). -/
def pyArgmaxPair : List ℚ → Option (ℕ × ℚ)
  | [] => none
  | x :: xs =>
    match pyArgmaxPair xs with
    | none => some (0, x)
    | some (i, v) => if v > x then some (i + 1, v) else some (0, x)

/-- The geometric payload of a `Node`: a matplotlib `plt.Circle`,
`plt.Rectangle` (lower-left corner `(x, y)`, extent `(w, h)`), or
`plt.Polygon` carrying its stored vertex path `obj.get_verts()`
(a closed ring: the last point duplicates the first). -/
inductive Shape : Type
  | circle (center : Point) (radius : ℚ)
  | rect (x y w h : ℚ)
  | polygon (path : List Point)

/-- Whether the shape is a circle: the `isinstance(self.obj, plt.Circle)`
/ `shape == 'circle'` tests of the source. -/
def isCircle : Shape → Bool
  | .circle _ _ => true
  | _ => false

/-- `self.path = obj.get_verts()`: the stored boundary ring.  For a
matplotlib `Rectangle` this is the four corners counterclockwise from the
lower-left, plus the closing duplicate.  For a circle, matplotlib returns
a curve approximation that none of the modelled operations ever consult
(the circle branches use `center`/`radius` directly), so it is modelled
as `[]`. -/
def shapePath : Shape → List Point
  | .circle _ _ => []
  | .rect x y w h => [(x, y), (x + w, y), (x + w, y + h), (x, y + h), (x, y)]
  | .polygon path => path

/-- `Node.position`: circle center, rectangle center from
`get_xy()`/`get_width()`/`get_height()`, or `self.path[:-1].mean(axis=0)`
for a polygon. -/
def position : Shape → Point
  | .circle center _ => center
  | .rect x y w h => (x + w / 2, y + h / 2)
  | .polygon path => pmean path.dropLast

/-- `Node.height`: `radius * 2` for a circle, `get_height()` for a
rectangle, `abs(ys - ys.mean()).max() * 2` over `ys = path[:-1, 1]` for a
polygon. -/
def height : Shape → ℚ
  | .circle _ radius => radius * 2
  | .rect _ _ _ h => h
  | .polygon path =>
    listMax ((path.dropLast.map Prod.snd).map
      (fun y => |y - qmean (path.dropLast.map Prod.snd)|)) * 2

/-- `Node.width`: `radius * 2` for a circle, `get_width()` for a
rectangle, `abs(xs - xs.mean()).max() * 2` over `xs = path[:-1, 0]` for a
polygon. -/
def width : Shape → ℚ
  | .circle _ radius => radius * 2
  | .rect _ _ w _ => w
  | .polygon path =>
    listMax ((path.dropLast.map Prod.fst).map
      (fun x => |x - qmean (path.dropLast.map Prod.fst)|)) * 2

/-- The characters of the Python string `'top'`. -/
def topChars : List Char := ['t', 'o', 'p']

/-- The characters of the Python string `'bottom'`. -/
def bottomChars : List Char := ['b', 'o', 't', 't', 'o', 'm']

/-- The characters of the Python string `'left'`. -/
def leftChars : List Char := ['l', 'e', 'f', 't']

/-- The characters of the Python string `'right'`. -/
def rightChars : List Char := ['r', 'i', 'g', 'h', 't']

/-- `Node._offset_dict` as a lookup: `{'top': [0, h/2], 'bottom':
[0, -h/2], 'left': [-w/2, 0], 'right': [w/2, 0]}`; a missing key is the
`KeyError` of a Python dict lookup. -/
def offset_dict (s : Shape) (key : List Char) : Option Point :=
  if key = topChars then some (0, height s / 2)
  else if key = bottomChars then some (0, -(height s / 2))
  else if key = leftChars then some (-(width s / 2), 0)
  else if key = rightChars then some (width s / 2, 0)
  else none

/-- `Node.__getattr__(name)`: split `name` on `'_'` into exactly two
tokens, look both up in `_offset_dict`, and return
`Pin(offset_dict[d1] + offset_dict[d2] * 0.8 + self.position)`; any
failure inside the `try` block becomes `AttributeError` (`none`). -/
def node_getattr (s : Shape) (name : List Char) : Option Point :=
  match pySplit '_' name with
  | [d1, d2] =>
    match offset_dict s d1, offset_dict s d2 with
    | some o1, some o2 =>
      some (padd (padd o1 (smulP (4 / 5) o2)) (position s))
    | _, _ => none
  | _ => none

/-- `Node.pin(direction, align)` for a string `direction`:
`loc = _offset_dict[direction] + position`, then when `align` is given,
`loc[0] = target[0]` for `'bottom'`/`'top'` and `loc[1] = target[1]` for
`'left'`/`'right'`.  The dict lookup raises `KeyError` (`none`) for an
unrecognized token; `align` is passed as the aligning node's `position`. -/
def pin (s : Shape) (direction : List Char) (align : Option Point) :
    Option Point :=
  match offset_dict s direction with
  | none => none
  | some off =>
    let loc := padd off (position s)
    match align with
    | none => some loc
    | some target =>
      if direction = bottomChars ∨ direction = topChars then
        some (target.1, loc.2)
      else if direction = leftChars ∨ direction = rightChars then
        some (loc.1, target.2)
      else none

/-- `vdirection = [-direction[1], direction[0]]`: the +90° rotation used
by `get_connection_point`. -/
def perp (d : Point) : Point := (-d.2, d.1)

/-- The score `candidates_.dot(direction) -
abs(candidates_.dot(vdirection))` of one candidate `c`, where
`candidates_ = candidates - self.position`. -/
def score (s : Shape) (d : Point) (c : Point) : ℚ :=
  pdot (psub c (position s)) d - |pdot (psub c (position s)) (perp d)|

/-- The candidate set of `get_connection_point`:
`np.concatenate([vertices[:-1], edge_centers])` with
`edge_centers = (vertices[:-1] + vertices[1:]) / 2`. -/
def candidateList (s : Shape) : List Point :=
  let vertices := shapePath s
  vertices.dropLast ++
    List.zipWith (fun a b => smulP (1 / 2) (padd a b))
      vertices.dropLast vertices.tail

/-- The non-circle branch of `get_connection_point`:
`candidates[np.argmax(distance)]` over the score list. -/
def gcpBranch (s : Shape) (d : Point) : Option Point :=
  let cands := candidateList s
  match pyArgmaxPair (cands.map (score s d)) with
  | none => none
  | some iv => cands.get? iv.1

/-- `Node.get_connection_point(direction)`: for a circle,
`self.obj.center + self.obj.radius * direction`; otherwise the
score-maximizing candidate. -/
def get_connection_point (s : Shape) (d : Point) : Option Point :=
  match s with
  | .circle center radius => some (padd center (smulP radius d))
  | _ => gcpBranch s d

/-- The four single symbolic tokens. -/
inductive Dir : Type
  | top
  | bottom
  | left
  | right
deriving DecidableEq

/-- The Python string spelling each token. -/
def dirChars : Dir → List Char
  | .top => topChars
  | .bottom => bottomChars
  | .left => leftChars
  | .right => rightChars

/-- The offset the spec assigns to each token: top/bottom map to
±half-height on the y-axis, left/right to ±half-width on the x-axis. -/
def claimOffset (s : Shape) : Dir → Point
  | .top => (0, height s / 2)
  | .bottom => (0, -(height s / 2))
  | .left => (-(width s / 2), 0)
  | .right => (width s / 2, 0)

/-! ### Helper lemmas -/

theorem offset_dict_dirChars (s : Shape) (d : Dir) :
    offset_dict s (dirChars d) = some (claimOffset s d) := by
  cases d <;> rfl

theorem pySplit_compound (d1 d2 : Dir) :
    pySplit '_' (dirChars d1 ++ '_' :: dirChars d2) =
      [dirChars d1, dirChars d2] := by
  cases d1 <;> cases d2 <;> rfl

theorem node_getattr_compound (s : Shape) (d1 d2 : Dir) :
    node_getattr s (dirChars d1 ++ '_' :: dirChars d2) =
      some (padd (padd (claimOffset s d1) (smulP (4 / 5) (claimOffset s d2)))
        (position s)) := by
  cases d1 <;> cases d2 <;> rfl

theorem offset_dict_none (s : Shape) (key : List Char)
    (h : ∀ d : Dir, key ≠ dirChars d) : offset_dict s key = none := by
  unfold offset_dict
  split_ifs with h1 h2 h3 h4
  · exact absurd h1 (h Dir.top)
  · exact absurd h2 (h Dir.bottom)
  · exact absurd h3 (h Dir.left)
  · exact absurd h4 (h Dir.right)
  · rfl

theorem offset_dict_some_key (s : Shape) (key : List Char) (o : Point)
    (h : offset_dict s key = some o) : ∃ d : Dir, key = dirChars d := by
  unfold offset_dict at h
  split_ifs at h with h1 h2 h3 h4
  · exact ⟨Dir.top, h1⟩
  · exact ⟨Dir.bottom, h2⟩
  · exact ⟨Dir.left, h3⟩
  · exact ⟨Dir.right, h4⟩

theorem pyArgmaxPair_all_zero :
    ∀ l : List ℚ, l ≠ [] → (∀ x ∈ l, x = 0) →
      pyArgmaxPair l = some (0, 0) := by
  intro l
  induction l with
  | nil => intro h _; exact absurd rfl h
  | cons x xs ih =>
    intro _ hzero
    have hx : x = 0 := hzero x (List.mem_cons_self x xs)
    subst hx
    cases xs with
    | nil => rfl
    | cons y ys =>
      have hxs : pyArgmaxPair (y :: ys) = some (0, 0) :=
        ih (List.cons_ne_nil y ys)
          (fun z hz => hzero z (List.mem_cons_of_mem _ hz))
      have hstep : pyArgmaxPair ((0 : ℚ) :: y :: ys) =
          match pyArgmaxPair (y :: ys) with
          | none => some (0, (0 : ℚ))
          | some (i, v) => if v > 0 then some (i + 1, v) else some (0, 0) :=
        rfl
      rw [hstep, hxs]
      simp

/-! ### Claim theorems -/

/-- Claim C1, counterexample: on the circle of radius 1 at the origin,
`get_connection_point` applied to the zero-length direction `(0, 0)` does
return a point — the circle's center — rather than failing, refuting
"it never returns a point". -/
theorem c1_counterexample :
    (get_connection_point (Shape.circle (0, 0) 1) (0, 0)).isSome = true ∧
      get_connection_point (Shape.circle (0, 0) 1) (0, 0) = some (0, 0) := by
  constructor <;> simp [get_connection_point, padd, smulP]

/-- Claim C1, amended: `get_connection_point` performs no zero-direction
check and never fails on `(0, 0)`: a circle yields its center, a
rectangle yields its first stored boundary vertex (the lower-left
corner), and a polygon whose stored path holds at least two points —
every closed ring does — yields its first stored boundary vertex, since
every candidate scores `0` and `np.argmax` picks the first. -/
theorem c1_amended_zero_direction_no_error :
    (∀ (center : Point) (r : ℚ),
      get_connection_point (Shape.circle center r) (0, 0) = some center) ∧
    (∀ x y w h : ℚ,
      get_connection_point (Shape.rect x y w h) (0, 0) = some (x, y)) ∧
    (∀ (p0 p1 : Point) (rest : List Point),
      get_connection_point (Shape.polygon (p0 :: p1 :: rest)) (0, 0) =
        some p0) := by
  refine ⟨?_, ?_, ?_⟩
  · intro center r
    simp [get_connection_point, padd, smulP]
  · intro x y w h
    simp [get_connection_point, gcpBranch, candidateList, shapePath, score,
      pdot, psub, perp, pyArgmaxPair, padd, smulP]
  · intro p0 p1 rest
    show gcpBranch (Shape.polygon (p0 :: p1 :: rest)) (0, 0) = some p0
    simp only [gcpBranch]
    have hz : ∀ x ∈ (candidateList (Shape.polygon (p0 :: p1 :: rest))).map
        (score (Shape.polygon (p0 :: p1 :: rest)) (0, 0)), x = 0 := by
      intro x hx
      obtain ⟨c, _, rfl⟩ := List.mem_map.mp hx
      simp [score, pdot, psub, perp]
    have hne : (candidateList (Shape.polygon (p0 :: p1 :: rest))).map
        (score (Shape.polygon (p0 :: p1 :: rest)) (0, 0)) ≠ [] := by
      simp [candidateList, shapePath]
    rw [pyArgmaxPair_all_zero _ hne hz]
    rfl

/-- Claim C2, counterexample: for the unit circle at the origin and the
non-unit direction `(2, 0)`, the resolver returns `(2, 0)` — squared
distance `4` from the center, not `radius² = 1` — so the direction is
not normalized and the result does not lie at distance `radius` for
every non-zero vector. -/
theorem c2_counterexample :
    get_connection_point (Shape.circle (0, 0) 1) (2, 0) = some (2, 0) ∧
      ¬ (((2 : ℚ) - 0) ^ 2 + ((0 : ℚ) - 0) ^ 2 = 1 ^ 2) := by
  constructor <;> norm_num [get_connection_point, padd, smulP]

/-- Claim C2, amended: for a circle the resolver returns
`center + radius * direction` without normalizing, so the result lies at
exact distance `radius` (squared distance `radius²`) from the center
precisely when the direction is a unit vector. -/
theorem c2_amended_circle_unit_direction (center : Point) (r : ℚ) (v : Point)
    (hv : v.1 ^ 2 + v.2 ^ 2 = 1) :
    get_connection_point (Shape.circle center r) v =
      some (padd center (smulP r v)) ∧
    ∀ p : Point, get_connection_point (Shape.circle center r) v = some p →
      (p.1 - center.1) ^ 2 + (p.2 - center.2) ^ 2 = r ^ 2 := by
  constructor
  · rfl
  · intro p hp
    simp only [get_connection_point, Option.some.injEq] at hp
    subst hp
    simp only [padd, smulP]
    have hexp : (center.1 + r * v.1 - center.1) ^ 2 +
        (center.2 + r * v.2 - center.2) ^ 2 = r ^ 2 * (v.1 ^ 2 + v.2 ^ 2) := by
      ring
    rw [hexp, hv, mul_one]

/-- Claim C2, witness for the amended theorem at the concrete unit
vector `(3/5, 4/5)` on the circle of radius 3 centered at `(1, 2)`. -/
theorem c2_amended_witness :
    get_connection_point (Shape.circle (1, 2) 3) (3 / 5, 4 / 5) =
      some (padd (1, 2) (smulP 3 (3 / 5, 4 / 5))) ∧
    ∀ p : Point,
      get_connection_point (Shape.circle (1, 2) 3) (3 / 5, 4 / 5) = some p →
      (p.1 - (1 : ℚ)) ^ 2 + (p.2 - (2 : ℚ)) ^ 2 = 3 ^ 2 :=
  c2_amended_circle_unit_direction (1, 2) 3 (3 / 5, 4 / 5) (by norm_num)

/-- Claim C4: for every shape and every compound token `d1_d2` with
`d1`, `d2` drawn from {top, bottom, left, right}, attribute access
returns the point `offset(d1) + 0.8 * offset(d2) + centroid`, where
`offset` maps top/bottom to ±half-height on the y-axis and left/right to
±half-width on the x-axis; the resolution takes no alignment target. -/
theorem c4_compound_anchor_formula (s : Shape) (d1 d2 : Dir) :
    node_getattr s (dirChars d1 ++ '_' :: dirChars d2) =
      some (padd (padd (claimOffset s d1) (smulP (4 / 5) (claimOffset s d2)))
        (position s)) :=
  node_getattr_compound s d1 d2

/-- Claim C5: for every shape and alignment target `P`, an aligned
`'left'`/`'right'` pin keeps the unaligned x-coordinate and takes its
y-coordinate from `P`, and an aligned `'top'`/`'bottom'` pin keeps the
unaligned y-coordinate and takes its x-coordinate from `P` (the
unaligned resolutions are restated alongside for comparison). -/
theorem c5_alignment_overrides_perpendicular (s : Shape) (P : Point) :
    pin s leftChars (some P) = some ((position s).1 - width s / 2, P.2) ∧
    pin s leftChars none =
      some ((position s).1 - width s / 2, (position s).2) ∧
    pin s rightChars (some P) = some ((position s).1 + width s / 2, P.2) ∧
    pin s rightChars none =
      some ((position s).1 + width s / 2, (position s).2) ∧
    pin s topChars (some P) = some (P.1, (position s).2 + height s / 2) ∧
    pin s topChars none =
      some ((position s).1, (position s).2 + height s / 2) ∧
    pin s bottomChars (some P) = some (P.1, (position s).2 - height s / 2) ∧
    pin s bottomChars none =
      some ((position s).1, (position s).2 - height s / 2) := by
  refine ⟨?_, ?_, ?_, ?_, ?_, ?_, ?_, ?_⟩ <;>
    simp [pin, offset_dict, padd, topChars, bottomChars, leftChars,
      rightChars, Prod.ext_iff] <;> ring

/-- Claim C6: for every shape, resolving a single symbolic token without
alignment returns the centroid offset by `(0, +height/2)` for `'top'`,
`(0, -height/2)` for `'bottom'`, `(-width/2, 0)` for `'left'` and
`(+width/2, 0)` for `'right'`; for a rectangle the `'top'` and
`'bottom'` pins differ in y by exactly the height and both carry the
centroid's x-coordinate. -/
theorem c6_single_token_resolution (s : Shape) :
    pin s topChars none =
      some ((position s).1, (position s).2 + height s / 2) ∧
    pin s bottomChars none =
      some ((position s).1, (position s).2 - height s / 2) ∧
    pin s leftChars none =
      some ((position s).1 - width s / 2, (position s).2) ∧
    pin s rightChars none =
      some ((position s).1 + width s / 2, (position s).2) ∧
    ∀ x y w h : ℚ, ∃ pt pb : Point,
      pin (Shape.rect x y w h) topChars none = some pt ∧
      pin (Shape.rect x y w h) bottomChars none = some pb ∧
      pt.2 - pb.2 = h ∧
      pt.1 = (position (Shape.rect x y w h)).1 ∧
      pb.1 = (position (Shape.rect x y w h)).1 := by
  refine ⟨?_, ?_, ?_, ?_, ?_⟩
  · simp [pin, offset_dict, padd, topChars, bottomChars, leftChars,
      rightChars, Prod.ext_iff]; ring
  · simp [pin, offset_dict, padd, topChars, bottomChars, leftChars,
      rightChars, Prod.ext_iff]; ring
  · simp [pin, offset_dict, padd, topChars, bottomChars, leftChars,
      rightChars, Prod.ext_iff]; ring
  · simp [pin, offset_dict, padd, topChars, bottomChars, leftChars,
      rightChars, Prod.ext_iff]; ring
  · intro x y w h
    refine ⟨(x + w / 2, y + h / 2 + h / 2), (x + w / 2, y + h / 2 - h / 2),
      ?_, ?_, ?_, ?_, ?_⟩ <;>
      simp [pin, offset_dict, padd, position, height, topChars, bottomChars,
        leftChars, rightChars, Prod.ext_iff] <;> ring

/-- Claim C8: symbolic `pin` resolution returns an error (`KeyError`,
modelled `none`) for every token outside {top, bottom, left, right}, and
compound attribute resolution returns an error (`AttributeError`,
modelled `none`) for every name that does not split into exactly two
tokens from that set; neither path produces a default point. -/
theorem c8_invalid_tokens_fail (s : Shape) (dir name : List Char)
    (align : Option Point)
    (hdir : ∀ d : Dir, dir ≠ dirChars d)
    (hname : ∀ d1 d2 : Dir,
      pySplit '_' name ≠ [dirChars d1, dirChars d2]) :
    pin s dir align = none ∧ node_getattr s name = none := by
  constructor
  · unfold pin
    rw [offset_dict_none s dir hdir]
  · unfold node_getattr
    rcases hsplit : pySplit '_' name with _ | ⟨a, _ | ⟨b, _ | _⟩⟩
    · rfl
    · rfl
    · rcases h1 : offset_dict s a with _ | o1
      · simp [h1]
      · rcases h2 : offset_dict s b with _ | o2
        · simp [h1, h2]
        · obtain ⟨d1, rfl⟩ := offset_dict_some_key s a o1 h1
          obtain ⟨d2, rfl⟩ := offset_dict_some_key s b o2 h2
          exact absurd hsplit (hname d1 d2)
    · rfl

/-- Claim C8, witness: on a concrete rectangle, the unrecognized pin
token `'no'` and the attribute name `'top'` (a single token, not an
underscore-joined pair) both fail. -/
theorem c8_invalid_tokens_fail_witness :
    pin (Shape.rect 0 0 2 1) ['n', 'o'] none = none ∧
      node_getattr (Shape.rect 0 0 2 1) topChars = none :=
  c8_invalid_tokens_fail (Shape.rect 0 0 2 1) ['n', 'o'] topChars none
    (by intro d; cases d <;> decide)
    (by intro d1 d2; cases d1 <;> cases d2 <;> decide)

/-- Claim C9: compound resolution is order-asymmetric: whenever a
shape's width and height differ, the `'top_left'` anchor differs from
the `'left_top'` anchor (the 0.8 weight applies to the second token
only). -/
theorem c9_compound_order_asymmetric (s : Shape)
    (hwh : width s ≠ height s) :
    node_getattr s (dirChars Dir.top ++ '_' :: dirChars Dir.left) ≠
      node_getattr s (dirChars Dir.left ++ '_' :: dirChars Dir.top) := by
  rw [node_getattr_compound, node_getattr_compound]
  intro h
  rw [Option.some.injEq] at h
  simp only [claimOffset, padd, smulP, Prod.ext_iff] at h
  obtain ⟨h1, h2⟩ := h
  have hw : width s = 0 := by linarith
  have hh : height s = 0 := by linarith
  exact hwh (by rw [hw, hh])

/-- Claim C9, witness: the 2×1 rectangle at the origin has distinct
`'top_left'` and `'left_top'` anchors. -/
theorem c9_compound_order_asymmetric_witness :
    node_getattr (Shape.rect 0 0 2 1)
        (dirChars Dir.top ++ '_' :: dirChars Dir.left) ≠
      node_getattr (Shape.rect 0 0 2 1)
        (dirChars Dir.left ++ '_' :: dirChars Dir.top) :=
  c9_compound_order_asymmetric (Shape.rect 0 0 2 1)
    (by norm_num [width, height])

/-- Claim C7: for a polygon whose stored boundary is a closed ring (the
last vertex duplicating the first), the centroid is the arithmetic mean
of the vertices with the closing duplicate excluded, and the width
(resp. height) is twice the maximum absolute deviation of the vertices'
x (resp. y) coordinates from the centroid's x (resp. y). -/
theorem c7_polygon_derived_geometry (v0 : Point) (rest : List Point) :
    position (Shape.polygon ((v0 :: rest) ++ [v0])) =
      (((v0 :: rest).map Prod.fst).sum / ((v0 :: rest).length : ℚ),
        ((v0 :: rest).map Prod.snd).sum / ((v0 :: rest).length : ℚ)) ∧
    width (Shape.polygon ((v0 :: rest) ++ [v0])) =
      2 * listMax ((v0 :: rest).map fun p =>
        |p.1 - (position (Shape.polygon ((v0 :: rest) ++ [v0]))).1|) ∧
    height (Shape.polygon ((v0 :: rest) ++ [v0])) =
      2 * listMax ((v0 :: rest).map fun p =>
        |p.2 - (position (Shape.polygon ((v0 :: rest) ++ [v0]))).2|) := by
  have hd : ((v0 :: rest) ++ [v0]).dropLast = v0 :: rest :=
    List.dropLast_concat
  refine ⟨?_, ?_, ?_⟩
  · simp only [position, pmean, qmean, hd, List.length_map]
  · simp only [width, position, pmean, hd, List.map_map, Function.comp_def,
      qmean, List.length_map]
    ring
  · simp only [height, position, pmean, hd, List.map_map, Function.comp_def,
      qmean, List.length_map]
    ring

theorem pyArgmaxPair_cons_ne_none (x : ℚ) (xs : List ℚ) :
    pyArgmaxPair (x :: xs) ≠ none := by
  simp only [pyArgmaxPair]
  rcases pyArgmaxPair xs with _ | ⟨i, v⟩
  · simp
  · dsimp only
    split <;> simp

theorem pyArgmaxPair_spec (l : List ℚ) :
    ∀ (i : ℕ) (v : ℚ), pyArgmaxPair l = some (i, v) →
      ∃ hi : i < l.length, l.get ⟨i, hi⟩ = v ∧
        (∀ j (hj : j < l.length), l.get ⟨j, hj⟩ ≤ v) ∧
        (∀ j (hj : j < l.length), j < i → l.get ⟨j, hj⟩ < v) := by
  induction l with
  | nil => intro i v h; simp [pyArgmaxPair] at h
  | cons x xs ih =>
    intro i v h
    simp only [pyArgmaxPair] at h
    rcases hxs : pyArgmaxPair xs with _ | ⟨i', v'⟩
    · rw [hxs] at h
      simp only [Option.some.injEq, Prod.mk.injEq] at h
      obtain ⟨hi0, hv⟩ := h
      subst hi0
      subst hv
      have hnil : xs = [] := by
        cases xs with
        | nil => rfl
        | cons y ys => exact absurd hxs (pyArgmaxPair_cons_ne_none y ys)
      subst hnil
      refine ⟨by simp, rfl, ?_, ?_⟩
      · intro j hj
        have hj0 : j = 0 := by simpa using Nat.lt_one_iff.mp (by simpa using hj)
        subst hj0
        exact le_refl _
      · intro j hj hji
        exact absurd hji (Nat.not_lt_zero j)
    · rw [hxs] at h
      dsimp only at h
      obtain ⟨hi', hget, hle, hlt⟩ := ih i' v' hxs
      by_cases hgt : v' > x
      · rw [if_pos hgt] at h
        simp only [Option.some.injEq, Prod.mk.injEq] at h
        obtain ⟨hii, hvv⟩ := h
        subst hii
        subst hvv
        refine ⟨by simpa using Nat.succ_lt_succ hi', hget, ?_, ?_⟩
        · intro j hj
          cases j with
          | zero => exact le_of_lt hgt
          | succ j' =>
            exact hle j' (by simpa using Nat.lt_of_succ_lt_succ hj)
        · intro j hj hji
          cases j with
          | zero => exact hgt
          | succ j' =>
            exact hlt j' (by simpa using Nat.lt_of_succ_lt_succ hj)
              (Nat.lt_of_succ_lt_succ hji)
      · rw [if_neg hgt] at h
        simp only [Option.some.injEq, Prod.mk.injEq] at h
        obtain ⟨hii, hvv⟩ := h
        subst hii
        subst hvv
        refine ⟨by simp, rfl, ?_, ?_⟩
        · intro j hj
          cases j with
          | zero => exact le_refl _
          | succ j' =>
            exact le_trans
              (hle j' (by simpa using Nat.lt_of_succ_lt_succ hj))
              (not_lt.mp hgt)
        · intro j hj hji
          exact absurd hji (Nat.not_lt_zero j)

theorem pyArgmaxPair_map_mul (c : ℚ) (hc : 0 < c) (l : List ℚ) :
    pyArgmaxPair (l.map fun t => c * t) =
      (pyArgmaxPair l).map fun p => (p.1, c * p.2) := by
  induction l with
  | nil => rfl
  | cons x xs ih =>
    simp only [List.map_cons, pyArgmaxPair, ih]
    cases hxs : pyArgmaxPair xs with
    | none => rfl
    | some iv =>
      obtain ⟨i, v⟩ := iv
      simp only [Option.map_some']
      by_cases hgt : v > x
      · rw [if_pos hgt, if_pos ((mul_lt_mul_left hc).mpr hgt)]
        rfl
      · rw [if_neg hgt,
          if_neg (fun hcon => hgt ((mul_lt_mul_left hc).mp hcon))]
        rfl

theorem score_smul (s : Shape) (c : ℚ) (hc : 0 < c) (d p : Point) :
    score s (smulP c d) p = c * score s d p := by
  simp only [score, pdot, psub, perp, smulP]
  have h1 : (p.1 - (position s).1) * (c * d.1) +
      (p.2 - (position s).2) * (c * d.2) =
      c * ((p.1 - (position s).1) * d.1 + (p.2 - (position s).2) * d.2) := by
    ring
  have h2 : (p.1 - (position s).1) * -(c * d.2) +
      (p.2 - (position s).2) * (c * d.1) =
      c * ((p.1 - (position s).1) * -d.2 + (p.2 - (position s).2) * d.1) := by
    ring
  rw [h1, h2, abs_mul, abs_of_pos hc]
  ring

theorem gcpBranch_smul (s : Shape) (c : ℚ) (hc : 0 < c) (d : Point) :
    gcpBranch s (smulP c d) = gcpBranch s d := by
  simp only [gcpBranch]
  have hmap : (candidateList s).map (score s (smulP c d)) =
      ((candidateList s).map (score s d)).map fun t => c * t := by
    rw [List.map_map]
    exact List.map_congr_left fun p _ => score_smul s c hc d p
  rw [hmap, pyArgmaxPair_map_mul c hc]
  cases pyArgmaxPair ((candidateList s).map (score s d)) with
  | none => rfl
  | some iv => rfl

/-- Claim C10: for rectangle and polygon shapes, vector-direction
resolution is invariant under positive rescaling of the direction:
`get_connection_point (c * v)` returns the same point as
`get_connection_point v` for every `c > 0`, even though the
implementation never normalizes the direction. -/
theorem c10_positive_scale_invariance (s : Shape) (hs : isCircle s = false)
    (c : ℚ) (hc : 0 < c) (d : Point) :
    get_connection_point s (smulP c d) = get_connection_point s d := by
  cases s with
  | circle center r => simp [isCircle] at hs
  | rect x y w h => exact gcpBranch_smul _ c hc d
  | polygon path => exact gcpBranch_smul _ c hc d

/-- Claim C10, witness: on the 2×1 rectangle at the origin, the scaled
direction `2 * (1, 1) = (2, 2)` resolves to the same point as `(1, 1)`. -/
theorem c10_positive_scale_invariance_witness :
    get_connection_point (Shape.rect 0 0 2 1) (smulP 2 (1, 1)) =
      get_connection_point (Shape.rect 0 0 2 1) (1, 1) :=
  c10_positive_scale_invariance (Shape.rect 0 0 2 1) rfl 2 (by norm_num)
    (1, 1)

/-- Claim C3: for a rectangle or polygon, vector-direction resolution
returns an element of the candidate list (boundary vertices with the
closing duplicate excluded, followed by the midpoints of every boundary
edge, the closing edge included) that maximizes the score
`dot(c − centroid, d) − |dot(c − centroid, perp d)|`, and every
candidate appearing earlier in that ordering scores strictly lower, so
ties resolve to the first candidate. -/
theorem c3_vector_resolution_argmax (s : Shape) (hs : isCircle s = false)
    (d p : Point) (hres : get_connection_point s d = some p) :
    p ∈ candidateList s ∧
      ∃ i : ℕ, ∃ hi : i < (candidateList s).length,
        p = (candidateList s).get ⟨i, hi⟩ ∧
        (∀ j (hj : j < (candidateList s).length),
          score s d ((candidateList s).get ⟨j, hj⟩) ≤ score s d p) ∧
        (∀ j (hj : j < (candidateList s).length), j < i →
          score s d ((candidateList s).get ⟨j, hj⟩) < score s d p) := by
  have hb : gcpBranch s d = some p := by
    cases s with
    | circle center r => simp [isCircle] at hs
    | rect x y w h => exact hres
    | polygon path => exact hres
  simp only [gcpBranch] at hb
  rcases hax : pyArgmaxPair ((candidateList s).map (score s d))
      with _ | ⟨i, v⟩
  · rw [hax] at hb
    exact absurd hb (by simp)
  · rw [hax] at hb
    dsimp only at hb
    obtain ⟨hi, hget⟩ := List.get?_eq_some.mp hb
    obtain ⟨hi', hgetv, hle, hlt⟩ :=
      pyArgmaxPair_spec ((candidateList s).map (score s d)) i v hax
    have hsp : score s d p = v := by
      rw [← hget, ← hgetv]
      simp [List.get_eq_getElem, List.getElem_map]
    refine ⟨hget ▸ List.get_mem _ i hi, i, hi, hget.symm, ?_, ?_⟩
    · intro j hj
      have := hle j (by simpa using hj)
      rw [hsp]
      simpa [List.get_eq_getElem, List.getElem_map] using this
    · intro j hj hji
      have := hlt j (by simpa using hj) hji
      rw [hsp]
      simpa [List.get_eq_getElem, List.getElem_map] using this

/-- Claim C3, witness: the unit square with direction `(1, 1)` resolves
to the vertex `(1, 1)` (the spec's end-to-end example), and that point
satisfies the candidate-membership and first-maximum properties. -/
theorem c3_vector_resolution_argmax_witness :
    ((1 : ℚ), (1 : ℚ)) ∈
      candidateList (Shape.polygon [(0, 0), (1, 0), (1, 1), (0, 1), (0, 0)]) ∧
    ∃ i : ℕ, ∃ hi : i <
        (candidateList
          (Shape.polygon [(0, 0), (1, 0), (1, 1), (0, 1), (0, 0)])).length,
      ((1 : ℚ), (1 : ℚ)) =
        (candidateList
          (Shape.polygon [(0, 0), (1, 0), (1, 1), (0, 1), (0, 0)])).get
          ⟨i, hi⟩ ∧
      (∀ j (hj : j <
          (candidateList
            (Shape.polygon [(0, 0), (1, 0), (1, 1), (0, 1), (0, 0)])).length),
        score (Shape.polygon [(0, 0), (1, 0), (1, 1), (0, 1), (0, 0)]) (1, 1)
            ((candidateList
              (Shape.polygon [(0, 0), (1, 0), (1, 1), (0, 1), (0, 0)])).get
              ⟨j, hj⟩) ≤
          score (Shape.polygon [(0, 0), (1, 0), (1, 1), (0, 1), (0, 0)])
            (1, 1) ((1 : ℚ), (1 : ℚ))) ∧
      (∀ j (hj : j <
          (candidateList
            (Shape.polygon [(0, 0), (1, 0), (1, 1), (0, 1), (0, 0)])).length),
        j < i →
        score (Shape.polygon [(0, 0), (1, 0), (1, 1), (0, 1), (0, 0)]) (1, 1)
            ((candidateList
              (Shape.polygon [(0, 0), (1, 0), (1, 1), (0, 1), (0, 0)])).get
              ⟨j, hj⟩) <
          score (Shape.polygon [(0, 0), (1, 0), (1, 1), (0, 1), (0, 0)])
            (1, 1) ((1 : ℚ), (1 : ℚ))) :=
  c3_vector_resolution_argmax
    (Shape.polygon [(0, 0), (1, 0), (1, 1), (0, 1), (0, 0)]) rfl (1, 1)
    (1, 1)
    (by norm_num [get_connection_point, gcpBranch, candidateList, shapePath,
      score, pdot, psub, perp, position, pmean, qmean, pyArgmaxPair, padd,
      smulP, abs])

end Viznet
